import Mathlib

/-!
Verification of the dxlib streaming-manager subsystem.

This file gives a shallow embedding, in Lean 4, of the parts of the dxlib
repository that the specification's claims are about:

* `dxlib/core/components/history.py` — the `History` container and its
  `__iadd__` concatenation;
* `dxlib/managers/generic_manager.py` — `GenericManager.is_alive`;
* `dxlib/servers/websocket_server.py` — `WebsocketServer` lifecycle;
* `dxlib/interfaces/servers/handlers.py` — `HTTPHandler.set_endpoint`,
  `WebsocketHandler.set_endpoint`, `WebsocketHandler.on_connect`;
* `dxlib/managers/strategy_manager.py` — `StrategyManager.execute`,
  `StrategyManager._consume`, `StrategyManager.run`, and the
  `MessageHandler` protocol (`process`, `connect`, `handle`).

Python effects are made explicit: machine state is threaded through
functions, a raised exception is an `Except.error` (in every modelled code
path the exception is raised before any state mutation of the receiver, so
the rollback-free `Except` model is faithful), logging and outbound sends
are append-only sinks in the state.  Python dictionaries are association
lists with Python's update semantics (an existing key keeps its position,
its value is replaced; iteration order is insertion order).

The file is laid out with all definitions first and all theorems after.
-/

namespace Dxlib

/-- The Python exception classes that occur in the modelled code paths. -/
inductive PyErr
  | valueError (msg : String)
  | typeError (msg : String)
  | attributeError
  | indexError
deriving DecidableEq

/-- Python `dict` lookup (`d.get(k)` / `d[k]`), on an association list. -/
def alistLookup {α β : Type} [DecidableEq α] : List (α × β) → α → Option β
  | [], _ => none
  | (k', v) :: rest, k => if k' = k then some v else alistLookup rest k

/-- Python `dict` assignment `d[k] = v`: an existing key keeps its position
and gets the new value, a new key is appended at the end. -/
def alistInsert {α β : Type} [DecidableEq α] (k : α) (v : β) : List (α × β) → List (α × β)
  | [] => [(k, v)]
  | (k', v') :: rest => if k' = k then (k, v) :: rest else (k', v') :: alistInsert k v rest

/-- The keys of an association-list dictionary are pairwise distinct. -/
def keysNodup {α β : Type} [DecidableEq α] (m : List (α × β)) : Prop :=
  (m.map Prod.fst).Nodup

/-! ## History (`dxlib/core/components/history.py`)

The `History` container is "a multi-indexed dataframe encapsulation with
dates and securities as the index and bar fields as the columns".  A row of
the underlying dataframe is modelled with its `(time, security)` multi-index
key and a single bar field; the schema's `SecurityManager` is kept as the
ordered list of known securities (`security.py` is not present in the
sources, so only its `add_list` behaviour — append the securities that are
not yet known, in order — is reflected, which is all `History` uses here). -/

/-- One dataframe row: the `(date, security)` multi-index key plus a bar field. -/
structure Row where
  time : Nat
  security : String
  close : Int
deriving DecidableEq

/-- The unique values of an index level in first-occurrence order
(`df.index.get_level_values(level).unique().tolist()`). -/
def firstUniques : List String → List String → List String
  | _, [] => []
  | seen, s :: rest =>
    if s ∈ seen then firstUniques seen rest else s :: firstUniques (s :: seen) rest

/-- `History`: the dataframe rows together with the schema's security manager. -/
structure History where
  df : List Row
  securities : List String
deriving DecidableEq

/-- `History.update_schema`: add to the security manager every security that
appears in the dataframe and is not yet known. -/
def History.update_schema (h : History) : History :=
  { h with
    securities :=
      h.securities ++ (firstUniques [] (h.df.map Row.security)).filter
        (fun s => decide (s ∉ h.securities)) }

/-- `History.__iadd__` with a `History` argument: `self.df = pd.concat([self.df,
other.df])` (rows of the left operand followed by rows of the right operand,
no deduplication), then `update_schema`. -/
def History.iadd (h other : History) : History :=
  History.update_schema { h with df := h.df ++ other.df }

/-- The multiplicity of a `(time, security)` key in a history's dataframe. -/
def History.keyCount (h : History) (t : Nat) (s : String) : Nat :=
  (h.df.filter (fun r => decide (r.time = t) && decide (r.security = s))).length

/-- The `History` constructor on a well-formed dataframe description:
store the rows and run `update_schema` (the schema starts empty). -/
def History.build (rows : List Row) : History :=
  History.update_schema { df := rows, securities := [] }

/-! ## GenericManager.is_alive (`dxlib/managers/generic_manager.py`)

```python
def is_alive(self):
    return (self.server.is_alive() or not self.server) and \
           (self.websocket.is_alive() or not self.websocket)
```

Each configured listener (`HttpServer` / `WebSocketServer` from `dxlib.api`,
whose sources are not part of the subsystem) is abstracted to its liveness
boolean; an unconfigured listener is Python `None`.  Python evaluation order
is kept: `x.is_alive()` is evaluated *before* the `not x` disjunct, and a
method access on `None` raises `AttributeError`; `a or b` returns `a` when
`a` is truthy, `a and b` returns `a` when `a` is falsy; `not x` on a
non-`None` object is `False`, on `None` it is `True`. -/

/-- A configured listener, abstracted to its liveness flag
(`is_alive()` of the `dxlib.api` server objects). -/
structure Listener where
  isAlive : Bool
deriving DecidableEq

/-- `x.is_alive()` on a listener attribute: on `None` the attribute access
raises `AttributeError`. -/
def methodIsAlive : Option Listener → Except PyErr Bool
  | none => .error .attributeError
  | some l => .ok l.isAlive

/-- Python `not x` on a listener attribute: `not None` is `True`,
`not obj` on a server object is `False`. -/
def pyNotListener : Option Listener → Bool
  | none => true
  | some _ => false

/-- The manager's two optional listeners (`use_server` / `use_websocket`). -/
structure GenericManager where
  server : Option Listener
  websocket : Option Listener
deriving DecidableEq

/-- `GenericManager.is_alive`, with Python's left-to-right short-circuit
evaluation made explicit. -/
def GenericManager.is_alive (m : GenericManager) : Except PyErr Bool :=
  match methodIsAlive m.server with
  | .error e => .error e
  | .ok a =>
    if a || pyNotListener m.server then
      match methodIsAlive m.websocket with
      | .error e => .error e
      | .ok b => .ok (b || pyNotListener m.websocket)
    else
      .ok false

/-! ## WebsocketServer lifecycle (`dxlib/servers/websocket_server.py`)

`start()` sets the `_running` event and *spawns* a thread that runs
`asyncio.run(self._serve())`; the transport bind
(`self._websocket_server = await websockets.serve(...)`) is the first action
of that thread.  `start()` returns right after `Thread.start()` without any
synchronization with the bind, so the state observable immediately after
`start()` returns is the one in which the spawned thread has not yet run;
the bind is modelled as the separate `bindStep` transition executed by the
thread.  `alive` is `_running.is_set() and self._websocket_server is not
None and self._websocket_server.is_serving()`. -/

/-- `ServerStatus` (`dxlib/servers/server.py`). -/
inductive ServerStatus
  | error
  | started
  | stopped
deriving DecidableEq

/-- The observable state of a `WebsocketServer`: the `_running` event, the
`_websocket_server` attribute (`none` until the bind, then its
`is_serving()` flag), and whether a spawned thread still has its bind
pending. -/
structure WSState where
  running : Bool
  websocketServer : Option Bool
  bindPending : Bool
deriving DecidableEq

/-- A freshly constructed `WebsocketServer`. -/
def WSState.init : WSState := ⟨false, none, false⟩

/-- `WebsocketServer.start`: set `_running`, spawn the serving thread (its
bind is now pending) and return `ServerStatus.STARTED` immediately. -/
def WSState.start (s : WSState) : WSState × ServerStatus :=
  ({ s with running := true, bindPending := true }, .started)

/-- The first action of the spawned thread (`_serve`): perform the transport
bind, after which `_websocket_server` is a serving server. -/
def WSState.bindStep (s : WSState) : WSState :=
  if s.bindPending then { s with websocketServer := some true, bindPending := false } else s

/-- `WebsocketServer.alive`. -/
def WSState.alive (s : WSState) : Bool :=
  s.running && (match s.websocketServer with | some serving => serving | none => false)

/-- `WebsocketServer.stop`: no-op when `_running` is already clear; otherwise
clear `_running`, close the server if it is serving, join the thread. -/
def WSState.stop (s : WSState) : WSState × ServerStatus :=
  if s.running = false then (s, .stopped)
  else
    let s1 := { s with running := false }
    let s2 :=
      if (match s1.websocketServer with | some serving => serving | none => false) then
        { s1 with websocketServer := none }
      else s1
    ({ s2 with bindPending := false }, .stopped)

/-! ## Route registries (`dxlib/interfaces/servers/handlers.py`)

`HTTPHandler.endpoints` is a dict from route name to a dict from HTTP method
to the bound handler; `WebsocketHandler.endpoints` maps a route name directly
to the bound handler.  A bound handler (the `(endpoint, func)` pair) is
abstracted to an opaque identifier.  `WebsocketHandler.websockets` maps a
channel name to its subscriber list. -/

/-- The HTTP `Method` enum (`dxlib/interfaces/servers/endpoint.py`). -/
inductive Method
  | get
  | post
  | put
  | delete
deriving DecidableEq

/-- `HTTPHandler`: the two-level route registry plus the messages the handler
has logged (`set_endpoint` contains no logging call, so this sink lets the
absence of the duplicate-registration warning be observed). -/
structure HTTPHandler where
  endpoints : List (String × List (Method × Nat))
  logMessages : List String
deriving DecidableEq

/-- `HTTPHandler.set_endpoint`:
```python
self.endpoints[route_name] = self.endpoints.get(route_name, {})
self.endpoints[route_name][method] = (endpoint, func)
```
No duplicate check and no logging. -/
def HTTPHandler.set_endpoint (h : HTTPHandler) (routeName : String) (method : Method)
    (func : Nat) : HTTPHandler :=
  { h with
    endpoints :=
      alistInsert routeName
        (alistInsert method func ((alistLookup h.endpoints routeName).getD []))
        h.endpoints }

/-- Lookup of the handler bound to a `(route, method)` key. -/
def HTTPHandler.lookup (h : HTTPHandler) (routeName : String) (method : Method) :
    Option Nat :=
  (alistLookup h.endpoints routeName).bind (fun inner => alistLookup inner method)

/-- A connection object, abstracted to an identity and whether it exposes a
send capability (`hasattr(websocket, "send")`). -/
structure Conn where
  id : Nat
  hasSend : Bool
deriving DecidableEq

/-- `WebsocketHandler`: the flat push-route registry and the per-channel
subscriber lists. -/
structure WebsocketHandler where
  endpoints : List (String × Nat)
  websockets : List (String × List Conn)
deriving DecidableEq

/-- `WebsocketHandler.set_endpoint`: `self.endpoints[route_name] = (endpoint, func)`. -/
def WebsocketHandler.set_endpoint (h : WebsocketHandler) (routeName : String)
    (func : Nat) : WebsocketHandler :=
  { h with endpoints := alistInsert routeName func h.endpoints }

/-- `endpoint in self.endpoints` for the websocket registry. -/
def WebsocketHandler.hasEndpoint (h : WebsocketHandler) (endpoint : String) : Bool :=
  h.endpoints.any (fun kv => decide (kv.1 = endpoint))

/-- `self.websockets[endpoint] = self.websockets.get(endpoint, []);
self.websockets[endpoint].append(websocket)`. -/
def wsSubscribe (m : List (String × List Conn)) (endpoint : String) (c : Conn) :
    List (String × List Conn) :=
  alistInsert endpoint ((alistLookup m endpoint).getD [] ++ [c]) m

/-- `WebsocketHandler.on_connect`:
```python
if not hasattr(websocket, "send"):
    raise ValueError("Invalid websocket connection")
if endpoint not in self.endpoints:
    raise ValueError("Invalid endpoint")
self.websockets[endpoint] = self.websockets.get(endpoint, [])
self.websockets[endpoint].append(websocket)
```
Note the order: the send capability is validated first, the channel second. -/
def WebsocketHandler.on_connect (h : WebsocketHandler) (ws : Conn) (endpoint : String) :
    Except PyErr WebsocketHandler :=
  if ws.hasSend = false then .error (.valueError "Invalid websocket connection")
  else if h.hasEndpoint endpoint = false then .error (.valueError "Invalid endpoint")
  else .ok { h with websockets := wsSubscribe h.websockets endpoint ws }

/-- `on_connect` as the claim words it: the channel's existence in the
registry is validated *first* ("unknown channel"), the send capability
second ("invalid connection").  Stated only to be compared with
`WebsocketHandler.on_connect`, which is embedded from the source. -/
def on_connect_claimOrder (h : WebsocketHandler) (ws : Conn) (endpoint : String) :
    Except PyErr WebsocketHandler :=
  if h.hasEndpoint endpoint = false then .error (.valueError "unknown channel")
  else if ws.hasSend = false then .error (.valueError "invalid connection")
  else .ok { h with websockets := wsSubscribe h.websockets endpoint ws }

/-- The registry invariant the claim asserts: at most one handler per
`(name, verb)` key — i.e. the outer dict has pairwise-distinct route names
and every inner dict has pairwise-distinct methods. -/
def httpRegistryInv (h : HTTPHandler) : Prop :=
  keysNodup h.endpoints ∧ ∀ e ∈ h.endpoints, keysNodup e.2

/-- A freshly constructed `HTTPHandler` (`endpoints or {}`). -/
def HTTPHandler.empty : HTTPHandler := ⟨[], []⟩

/-- A freshly constructed `WebsocketHandler`. -/
def WebsocketHandler.empty : WebsocketHandler := ⟨[], []⟩

/-- An arbitrary sequence of request/response registrations applied to a
fresh handler (`set_endpoints` iterates `set_endpoint`). -/
def httpRegisterAll (regs : List (String × Method × Nat)) : HTTPHandler :=
  regs.foldl (fun h r => h.set_endpoint r.1 r.2.1 r.2.2) HTTPHandler.empty

/-- An arbitrary sequence of push-route registrations applied to a fresh
handler. -/
def wsRegisterAll (regs : List (String × Nat)) : WebsocketHandler :=
  regs.foldl (fun h r => h.set_endpoint r.1 r.2) WebsocketHandler.empty

/-! ## StrategyManager (`dxlib/managers/strategy_manager.py`)

The manager's run loop and execution cycle.  The strategy and the portfolio
signal-application are the spec's external collaborators: the strategy is a
pure function `execute(index, position, history)`, and a portfolio is
"consumed through: apply a signal, report success or a domain error"
(`portfolio.py` is not among the sources; a domain error is the `ValueError`
that `execute` catches). -/

/-- An instrument identifier. -/
abbrev Security := String

/-- One trading signal, abstracted to its payload (direction/size). -/
abbrev Signal := Int

/-- The instrument → signal mapping returned by the strategy — a Python dict
in insertion order with distinct keys. -/
abbrev SignalMap := List (Security × Signal)

/-- A position mapping (instrument → quantity). -/
abbrev Position := List (Security × Int)

/-- Modelled from the spec (`portfolio.py` is not among the sources): the
portfolio object, reduced to the `position` mapping that
`StrategyManager.execute` reads; applying a signal to it is the abstract
`Env.trade` function. -/
structure Portfolio where
  position : Position
deriving DecidableEq

/-- One entry of `StrategyManager.portfolios`: `register` appends arbitrary
objects and `execute` branches on `isinstance(portfolio, Portfolio)`; a
non-`Portfolio` entry still needs a `position` attribute, which the
combined-position fold reads from every entry. -/
inductive Slot
  | portfolio (p : Portfolio)
  | other (position : Position)
deriving DecidableEq

/-- The `position` attribute of a registered entry. -/
def Slot.position : Slot → Position
  | .portfolio p => p.position
  | .other pos => pos

/-- `isinstance(portfolio, Portfolio)`. -/
def Slot.isPortfolio : Slot → Bool
  | .portfolio _ => true
  | .other _ => false

/-- `collections.Counter.__add__`: counts are added per key — keys of the
left operand first, then the new keys of the right operand — and only
entries whose resulting count is positive are kept. -/
def counterAdd (a b : Position) : Position :=
  (a.map (fun kv => (kv.1, kv.2 + ((alistLookup b kv.1).getD 0)))).filter
      (fun kv => decide (0 < kv.2))
    ++ b.filter (fun kv => decide (alistLookup a kv.1 = none) && decide (0 < kv.2))

/-- `dict(sum((Counter(portfolio.position) for portfolio in self.portfolios),
Counter()))`. -/
def combinedPosition (slots : List Slot) : Position :=
  slots.foldl (fun acc s => counterAdd acc s.position) []

/-- The external collaborators of one manager: the strategy's pure
`execute(index, position, history)`, the portfolio signal application
(success returns the updated portfolio, a domain error carries the
`ValueError` message), and the wire serialization of a history
(`to_json`). -/
structure Env where
  strategy : Row → Position → History → SignalMap
  trade : Portfolio → Security → Signal → Except String Portfolio
  histToJson : History → String

/-- The full mutable state the subsystem touches: the `StrategyManager`
fields, the `MessageHandler` per-connection registries (keyed by an opaque
connection identifier), and append-only sinks for warning-level log records
and for messages sent back over the push listener. -/
structure S where
  portfolios : List Slot
  signals : List SignalMap
  history : History
  running : Bool
  registeredPortfolios : List (Nat × Portfolio)
  registeredHistories : List (Nat × History)
  warnings : List String
  sent : List (Nat × String)
deriving DecidableEq

/-- `MessageHandler.send_signals`: iterates `signals.keys()` and, inside, the
keys of the `registered_portfolios` dict — which are the connection objects,
not the portfolios — then reads `.position` off such a key, which raises
`AttributeError` on the first pair; with no signals or no registered
portfolios a loop body never runs and nothing happens. -/
def send_signalsCheck (sigs : SignalMap) (st : S) : Except PyErr Unit :=
  match sigs, st.registeredPortfolios with
  | [], _ => .ok ()
  | _, [] => .ok ()
  | _ :: _, _ :: _ => .error .attributeError

/-- The inner `for portfolio in self.portfolios` loop of
`StrategyManager.execute` for one `(security, signal)` pair: a `Portfolio`
entry is traded, a raised `ValueError` being logged as a warning before the
loop continues; a non-`Portfolio` entry triggers
`self.message_handler.send_signals(signals)`.  Returns the updated slots and
the warnings this pass appended, in slot order. -/
def applySecurity (env : Env) (sigs : SignalMap) (sec : Security) (sig : Signal)
    (st : S) : List Slot → Except PyErr (List Slot × List String)
  | [] => .ok ([], [])
  | .portfolio p :: rest =>
    match env.trade p sec sig with
    | .ok p' =>
      match applySecurity env sigs sec sig st rest with
      | .ok (rest', ws) => .ok (.portfolio p' :: rest', ws)
      | .error e => .error e
    | .error msg =>
      match applySecurity env sigs sec sig st rest with
      | .ok (rest', ws) => .ok (.portfolio p :: rest', msg :: ws)
      | .error e => .error e
  | .other pos :: rest =>
    match send_signalsCheck sigs st with
    | .error e => .error e
    | .ok _ =>
      match applySecurity env sigs sec sig st rest with
      | .ok (rest', ws) => .ok (.other pos :: rest', ws)
      | .error e => .error e

/-- The outer `for security in signals.keys()` loop of `execute`. -/
def execLoop (env : Env) (sigs : SignalMap) : SignalMap → S → Except PyErr S
  | [], st => .ok st
  | (sec, sig) :: rest, st =>
    match applySecurity env sigs sec sig st st.portfolios with
    | .error e => .error e
    | .ok (slots', ws) =>
      execLoop env sigs rest { st with portfolios := slots', warnings := st.warnings ++ ws }

/-- The mapping `execute` obtains from the strategy:
`self.strategy.execute(self.history.df.index[-1], pd.Series(position),
self.history)`. -/
def strategySignals (env : Env) (st : S) : SignalMap :=
  match st.history.df.getLast? with
  | some idx => env.strategy idx (combinedPosition st.portfolios) st.history
  | none => []

/-- `StrategyManager.execute`: build the combined position, ask the strategy
(`df.index[-1]` raises `IndexError` on an empty history), apply every signal
to every registered entry catching `ValueError` per application, and return
the full mapping. -/
def execute (env : Env) (st : S) : Except PyErr (S × SignalMap) :=
  match st.history.df.getLast? with
  | none => .error .indexError
  | some _ =>
    match execLoop env (strategySignals env st) (strategySignals env st) st with
    | .error e => .error e
    | .ok st' => .ok (st', strategySignals env st)

/-- A value produced by an update source: a `History` batch (what a generator
subscription yields in this subsystem) or the `(index, row)` tuple that
`DataFrame.iterrows()` yields. -/
inductive HVal
  | history (h : History)
  | rowTuple (r : Row)
deriving DecidableEq

/-- `self._history += bars`: `History.__iadd__` first checks
`isinstance(other, History)` and raises `ValueError` otherwise. -/
def iaddDyn (h : History) : HVal → Except PyErr History
  | .history other => .ok (h.iadd other)
  | .rowTuple _ => .error (.valueError "Invalid type for other")

/-- One iteration of `StrategyManager._consume`: fold the batch into the
accumulated history, run one `execute` cycle, append the produced mapping to
the signal log. -/
def step (env : Env) (b : HVal) (st : S) : Except PyErr (S × SignalMap) :=
  match iaddDyn st.history b with
  | .error e => .error e
  | .ok h' =>
    match execute env { st with history := h' } with
    | .error e => .error e
    | .ok (st1, sigs) => .ok ({ st1 with signals := st1.signals ++ [sigs] }, sigs)

/-- The `for bars in subscription` loop of `_consume`. -/
def steps (env : Env) : List HVal → S → Except PyErr S
  | [], st => .ok st
  | b :: rest, st =>
    match step env b st with
    | .error e => .error e
    | .ok (st', _) => steps env rest st'

/-- `StrategyManager._consume`: drain the subscription, then clear the run
flag (the clearing is skipped when an exception escapes the loop, as in
Python). -/
def consume (env : Env) (bs : List HVal) (st : S) : Except PyErr S :=
  match steps env bs st with
  | .error e => .error e
  | .ok st' => .ok { st' with running := false }

/-- The `async for bars in subscription` loop of `_async_consume`: each drawn
batch is processed only while `self.running` is still set — the
`if not self.running: break` check sits at the top of the loop body, before
the history fold — otherwise the loop breaks at once.  `step` preserves the
run flag, so a set flag stays set across iterations. -/
def asyncSteps (env : Env) : List HVal → S → Except PyErr S
  | [], st => .ok st
  | b :: rest, st =>
    if st.running = false then .ok st
    else
      match step env b st with
      | .error e => .error e
      | .ok (st', _) => asyncSteps env rest st'

/-- `StrategyManager._async_consume`: drain the subscription subject to the
run-flag check, then clear the run flag. -/
def asyncConsume (env : Env) (bs : List HVal) (st : S) : Except PyErr S :=
  match asyncSteps env bs st with
  | .error e => .error e
  | .ok st' => .ok { st' with running := false }

/-- The subscriptions `run` accepts: a synchronous generator (whose yielded
update batches are `History` objects in this subsystem), a `DataFrame`
(converted to `iterrows()`, which yields `(index, row)` tuples), a `History`
(converted to `self.df.iterrows()`), or an `AsyncGenerator` of `History`
batches (dispatched to `_async_consume`). -/
inductive Subscription
  | gen (batches : List History)
  | dataFrame (rows : List Row)
  | hist (h : History)
  | asyncGen (batches : List History)
deriving DecidableEq

/-- The sequence of values a subscription yields to its consumption loop. -/
def Subscription.hvals : Subscription → List HVal
  | .gen bs => bs.map HVal.history
  | .dataFrame rows => rows.map HVal.rowTuple
  | .hist h => h.df.map HVal.rowTuple
  | .asyncGen bs => bs.map HVal.history

/-- The number of update batches a subscription consists of. -/
def Subscription.numBatches (sub : Subscription) : Nat := sub.hvals.length

/-- Whether the subscription is an `AsyncGenerator` (dispatched to
`asyncio.run(self._async_consume(...))` rather than `self._consume`). -/
def Subscription.isAsync : Subscription → Bool
  | .asyncGen _ => true
  | .gen _ => false
  | .dataFrame _ => false
  | .hist _ => false

/-- `StrategyManager.run` in the non-threaded mode: an `AsyncGenerator`
subscription goes to `asyncio.run(self._async_consume(subscription))`, every
other accepted source to `self._consume` (after the `iterrows()`
conversion).  The non-threaded path never sets `self.running`; only the
threaded branch does. -/
def run (env : Env) (sub : Subscription) (st : S) : Except PyErr S :=
  match sub with
  | .asyncGen bs => asyncConsume env (bs.map HVal.history) st
  | _ => consume env sub.hvals st

/-- What a single portfolio experiences over one `execute` cycle: every
signal of the mapping is attempted on it in order; a failing application
keeps the portfolio, records the error, and processing continues with the
next signal. -/
def applyAllSignals (env : Env) : SignalMap → Portfolio → Portfolio × List String
  | [], p => (p, [])
  | (sec, sig) :: rest, p =>
    match env.trade p sec sig with
    | .ok p' => applyAllSignals env rest p'
    | .error e =>
      let r := applyAllSignals env rest p
      (r.1, e :: r.2)

/-- The per-slot view of a whole cycle. -/
def Slot.applyAll (env : Env) (sigs : SignalMap) : Slot → Slot
  | .portfolio p => .portfolio (applyAllSignals env sigs p).1
  | .other pos => .other pos

/-- One `(security, signal)` application on one slot, domain error absorbed. -/
def Slot.tradeOnce (env : Env) (sec : Security) (sig : Signal) : Slot → Slot
  | .portfolio p =>
    match env.trade p sec sig with
    | .ok p' => .portfolio p'
    | .error _ => .portfolio p
  | .other pos => .other pos

/-- The warnings one pass of the inner loop produces, in slot order. -/
def secWarnings (env : Env) (sec : Security) (sig : Signal) : List Slot → List String
  | [] => []
  | .portfolio p :: rest =>
    (match env.trade p sec sig with | .ok _ => [] | .error e => [e])
      ++ secWarnings env sec sig rest
  | .other _ :: rest => secWarnings env sec sig rest

/-- The slots after the whole nested loop, pass by pass. -/
def loopSlots (env : Env) : SignalMap → List Slot → List Slot
  | [], slots => slots
  | (sec, sig) :: rest, slots => loopSlots env rest (slots.map (Slot.tradeOnce env sec sig))

/-- The warnings of the whole nested loop, in emission order. -/
def loopWarnings (env : Env) : SignalMap → List Slot → List String
  | [], _ => []
  | (sec, sig) :: rest, slots =>
    secWarnings env sec sig slots
      ++ loopWarnings env rest (slots.map (Slot.tradeOnce env sec sig))

/-! ## MessageHandler (`dxlib/managers/strategy_manager.py`, lower half)

The per-connection protocol.  A message carries up to three keys; the
corresponding descriptions are kwargs mappings for the `Portfolio` and
`History` constructors. -/

/-- A portfolio description carried in a message (the kwargs of
`Portfolio(**portfolio)`); a malformed description makes the construction
raise `TypeError`. -/
inductive PortfolioDesc
  | wellFormed (position : Position)
  | malformed
deriving DecidableEq

/-- A history description (the kwargs of `History(**history)`): a mapping
with a well-formed `df`, a mapping with an unexpected keyword (`TypeError`
at the call), or a mapping whose `df` value has an invalid type
(`ValueError` inside `History.__init__`). -/
inductive HistoryDesc
  | wellFormed (rows : List Row)
  | badKwarg
  | badDfValue
deriving DecidableEq

/-- `Portfolio(**desc)`.  `Portfolio(**None)` raises `TypeError` at the call
site (Python: argument after ** must be a mapping) regardless of the
constructor; the constructor itself is modelled from the spec
(`portfolio.py` is not among the sources): "construct a portfolio from the
description (malformed description signals a typed construction error)". -/
def portfolioFromKwargs : Option PortfolioDesc → Except PyErr Portfolio
  | none => .error (.typeError "argument after ** must be a mapping")
  | some (.wellFormed pos) => .ok ⟨pos⟩
  | some .malformed => .error (.typeError "unexpected keyword argument")

/-- `History(**desc)` (the constructor of `core/components/history.py`):
with no kwargs (`**pd.DataFrame()` unpacks the empty frame to no arguments)
it builds the empty history; a well-formed `df` stores the rows and runs
`update_schema`; an unexpected keyword raises `TypeError`; an invalid `df`
value raises `ValueError`. -/
def historyFromKwargs : Option HistoryDesc → Except PyErr History
  | none => .ok (History.build [])
  | some (.wellFormed rows) => .ok (History.build rows)
  | some .badKwarg => .error (.typeError "unexpected keyword argument")
  | some .badDfValue => .error (.valueError "Invalid type for df")

/-- `MessageHandler._register_portfolio`: construct the portfolio
(`desc = none` models the no-argument call, where `portfolio` defaults to
`None`), register it with the manager (appended to `self.portfolios`), and
return it; a `TypeError` raised inside the `try` is re-raised as
`TypeError("Message does not contain a valid portfolio")`. -/
def registerPortfolioMsg (st : S) (desc : Option PortfolioDesc) :
    Except PyErr (S × Portfolio) :=
  match portfolioFromKwargs desc with
  | .ok p => .ok ({ st with portfolios := st.portfolios ++ [.portfolio p] }, p)
  | .error (.typeError _) => .error (.typeError "Message does not contain a valid portfolio")
  | .error e => .error e

/-- `MessageHandler._register_history`: construct the history (with no body,
`History(**history if history else pd.DataFrame())` unpacks the empty
frame), set it as the manager's accumulated history, and return it; a
`TypeError` raised inside the `try` is re-raised with the same (copy-pasted)
message as the portfolio variant. -/
def registerHistoryMsg (st : S) (desc : Option HistoryDesc) :
    Except PyErr (S × History) :=
  match historyFromKwargs desc with
  | .ok h => .ok ({ st with history := h }, h)
  | .error (.typeError _) => .error (.typeError "Message does not contain a valid portfolio")
  | .error e => .error e

/-- `MessageHandler._register_snapshot`: with no accumulated history yet this
is a history registration; otherwise `self.manager.run(History(**snapshot))`
is invoked — `run` turns the `History` into `df.iterrows()`, whose items are
`(index, row)` tuples — and the manager's history is returned.  A `TypeError`
raised inside the `try` is re-raised with the same message. -/
def registerSnapshotMsg (env : Env) (st : S) (desc : HistoryDesc) :
    Except PyErr (S × History) :=
  if st.history.df.isEmpty then registerHistoryMsg st (some desc)
  else
    match historyFromKwargs (some desc) with
    | .error (.typeError _) => .error (.typeError "Message does not contain a valid portfolio")
    | .error e => .error e
    | .ok h =>
      match run env (.hist h) st with
      | .ok st' => .ok (st', st'.history)
      | .error (.typeError _) => .error (.typeError "Message does not contain a valid portfolio")
      | .error e => .error e

/-- One wire message after JSON parsing: the three optional keys `process`
inspects. -/
structure Message where
  portfolio : Option PortfolioDesc
  history : Option HistoryDesc
  snapshot : Option HistoryDesc
deriving DecidableEq

/-- `MessageHandler.process`: the `portfolio` key is checked first, then
`history`, then `snapshot`; the first present key is handled and the
function returns; with none of the three a `ValueError` is raised. -/
def process (env : Env) (st : S) (ws : Nat) (msg : Message) : Except PyErr (S × String) :=
  match msg.portfolio with
  | some pdesc =>
    match registerPortfolioMsg st (some pdesc) with
    | .ok (st1, p) =>
      .ok ({ st1 with registeredPortfolios := alistInsert ws p st1.registeredPortfolios },
        "Portfolio registered")
    | .error e => .error e
  | none =>
    match msg.history with
    | some hdesc =>
      match registerHistoryMsg st (some hdesc) with
      | .ok (st1, h) =>
        .ok ({ st1 with registeredHistories := alistInsert ws h st1.registeredHistories },
          "History registered")
      | .error e => .error e
    | none =>
      match msg.snapshot with
      | some sdesc =>
        match registerSnapshotMsg env st sdesc with
        | .ok (st1, h) =>
          .ok ({ st1 with registeredHistories := alistInsert ws h st1.registeredHistories },
            "Snapshot registered: " ++ env.histToJson st1.history)
        | .error e => .error e
      | none => .error (.valueError "Message does not contain any valid information")

/-- `MessageHandler.connect`: the portfolio channel seeds a registration via
`self._register_portfolio()` (no argument), the history channel via
`self._register_history()`; any other channel falls through and returns
Python `None`. -/
def connect (_env : Env) (st : S) (ws : Nat) (endpoint : String) :
    Except PyErr (S × Option String) :=
  if endpoint = "portfolio" then
    match registerPortfolioMsg st none with
    | .ok (st1, p) =>
      .ok ({ st1 with registeredPortfolios := alistInsert ws p st1.registeredPortfolios },
        some "Portfolio connected")
    | .error e => .error e
  else if endpoint = "history" then
    match registerHistoryMsg st none with
    | .ok (st1, h) =>
      .ok ({ st1 with registeredHistories := alistInsert ws h st1.registeredHistories },
        some "History connected")
    | .error e => .error e
  else .ok (st, none)

/-- An inbound raw frame: either not parseable JSON or a parsed message. -/
inductive Wire
  | invalid (raw : String)
  | valid (msg : Message)

/-- Whether `except (ValueError, TypeError)` catches the exception. -/
def caughtByHandle : PyErr → Bool
  | .valueError _ => true
  | .typeError _ => true
  | _ => false

/-- `str(e)`. -/
def errText : PyErr → String
  | .valueError m => m
  | .typeError m => m
  | .attributeError => "AttributeError"
  | .indexError => "IndexError"

/-- `self.manager.websocket.send_message(websocket, payload)`: schedule a
write back to the originating connection. -/
def sendMessage (st : S) (ws : Nat) (payload : String) : S :=
  { st with sent := st.sent ++ [(ws, payload)] }

/-- `MessageHandler.handle`: `json.loads` — a decode failure raises
`TypeError("Message is not valid JSON")` *outside* any enclosing `try` — then
`process` inside `try/except (ValueError, TypeError)`; a caught error is
logged as a warning and sent back to the originating connection, a
successful dispatch sends the response back. -/
def handle (env : Env) (st : S) (ws : Nat) (w : Wire) : Except PyErr S :=
  match w with
  | .invalid _ => .error (.typeError "Message is not valid JSON")
  | .valid msg =>
    match process env st ws msg with
    | .ok (st1, resp) => .ok (sendMessage st1 ws resp)
    | .error e =>
      if caughtByHandle e then
        .ok (sendMessage { st with warnings := st.warnings ++ [errText e] } ws (errText e))
      else .error e

/-! ## Concrete states and environments used by the closed evaluations -/

/-- A fresh manager state (`StrategyManager.__init__`). -/
def initS : S := ⟨[], [], ⟨[], []⟩, false, [], [], [], []⟩

/-- A concrete environment whose strategy emits one buy signal for
instrument "A" and whose portfolio application always reports insufficient
holdings. -/
def envFail : Env :=
  ⟨fun _ _ _ => [("A", 1)], fun _ _ _ => .error "insufficient holdings", fun _ => "serialized"⟩

/-- A concrete environment whose strategy emits nothing and whose portfolio
application always succeeds. -/
def envOk : Env := ⟨fun _ _ _ => [], fun p _ _ => .ok p, fun _ => "serialized"⟩

/-- A two-batch generator subscription. -/
def subG : Subscription :=
  .gen [⟨[⟨1, "A", 100⟩], ["A"]⟩, ⟨[⟨2, "A", 101⟩], ["A"]⟩]

/-- A fresh manager with one registered (empty) portfolio. -/
def stOneP : S := { initS with portfolios := [.portfolio ⟨[]⟩] }

/-- The state `run envFail subG stOneP` ends in. -/
def outOneP : S :=
  { portfolios := [.portfolio ⟨[]⟩],
    signals := [[("A", 1)], [("A", 1)]],
    history := ⟨[⟨1, "A", 100⟩, ⟨2, "A", 101⟩], ["A"]⟩,
    running := false,
    registeredPortfolios := [],
    registeredHistories := [],
    warnings := ["insufficient holdings", "insufficient holdings"],
    sent := [] }

/-- A manager with two registered portfolios and a one-row history. -/
def stTwoP : S :=
  { initS with
    portfolios := [.portfolio ⟨[]⟩, .portfolio ⟨[("A", 5)]⟩],
    history := ⟨[⟨1, "A", 100⟩], ["A"]⟩ }

/-- A one-row batch for instrument "A". -/
def batchA2 : History := ⟨[⟨2, "A", 101⟩], ["A"]⟩

/-- The state `step envFail (.history batchA2) stTwoP` ends in. -/
def outTwoP : S :=
  { portfolios := [.portfolio ⟨[]⟩, .portfolio ⟨[("A", 5)]⟩],
    signals := [[("A", 1)]],
    history := ⟨[⟨1, "A", 100⟩, ⟨2, "A", 101⟩], ["A"]⟩,
    running := false,
    registeredPortfolios := [],
    registeredHistories := [],
    warnings := ["insufficient holdings", "insufficient holdings"],
    sent := [] }

/-- A message carrying both a portfolio and a history (and a snapshot). -/
def msgAllKeys : Message :=
  ⟨some (.wellFormed [("A", 3)]), some (.wellFormed [⟨1, "A", 100⟩]), some .badKwarg⟩

/-- A message carrying a history and a snapshot but no portfolio. -/
def msgHistSnap : Message :=
  ⟨none, some (.wellFormed [⟨1, "A", 100⟩]), some .badKwarg⟩

/-! # Theorems -/

/-! ## Association-list dictionary lemmas -/

theorem alistLookup_insert_self {α β : Type} [DecidableEq α] (k : α) (v : β)
    (m : List (α × β)) : alistLookup (alistInsert k v m) k = some v := by
  induction m with
  | nil => simp [alistInsert, alistLookup]
  | cons hd tl ih =>
    by_cases h : hd.1 = k
    · simp [alistInsert, alistLookup, h]
    · simp [alistInsert, alistLookup, h, ih]

theorem alistLookup_insert_ne {α β : Type} [DecidableEq α] (k k' : α) (v : β)
    (m : List (α × β)) (hne : k' ≠ k) :
    alistLookup (alistInsert k v m) k' = alistLookup m k' := by
  have hk : ¬(k = k') := fun h2 => hne h2.symm
  induction m with
  | nil => simp [alistInsert, alistLookup, hk]
  | cons hd tl ih =>
    by_cases h : hd.1 = k
    · simp [alistInsert, alistLookup, h, hk]
    · by_cases h' : hd.1 = k'
      · simp [alistInsert, alistLookup, h, h', hne]
      · simp [alistInsert, alistLookup, h, h', ih]

theorem mem_alistInsert {α β : Type} [DecidableEq α] (k : α) (v : β)
    (m : List (α × β)) (x : α × β) (hx : x ∈ alistInsert k v m) :
    x = (k, v) ∨ x ∈ m := by
  induction m with
  | nil => simpa [alistInsert] using hx
  | cons hd tl ih =>
    by_cases h : hd.1 = k
    · simp only [alistInsert, h, if_pos rfl] at hx
      rcases List.mem_cons.1 hx with h1 | h1
      · exact Or.inl h1
      · exact Or.inr (List.mem_cons_of_mem _ h1)
    · simp only [alistInsert, h, if_neg h] at hx
      rcases List.mem_cons.1 hx with h1 | h1
      · exact Or.inr (h1 ▸ List.mem_cons_self _ _)
      · rcases ih h1 with h2 | h2
        · exact Or.inl h2
        · exact Or.inr (List.mem_cons_of_mem _ h2)

theorem mem_keys_alistInsert {α β : Type} [DecidableEq α] (k a : α) (v : β)
    (m : List (α × β)) (ha : a ∈ (alistInsert k v m).map Prod.fst) :
    a = k ∨ a ∈ m.map Prod.fst := by
  rcases List.mem_map.1 ha with ⟨x, hx, hax⟩
  rcases mem_alistInsert k v m x hx with h | h
  · left; rw [← hax, h]
  · right; exact hax ▸ List.mem_map_of_mem Prod.fst h

theorem keysNodup_alistInsert {α β : Type} [DecidableEq α] (k : α) (v : β)
    (m : List (α × β)) (hm : keysNodup m) : keysNodup (alistInsert k v m) := by
  induction m with
  | nil => simp [keysNodup, alistInsert]
  | cons hd tl ih =>
    obtain ⟨k0, v0⟩ := hd
    have hm' : (k0 :: tl.map Prod.fst).Nodup := by simpa [keysNodup] using hm
    rcases List.nodup_cons.1 hm' with ⟨hhd, htl⟩
    have htl' : keysNodup tl := htl
    by_cases h : k0 = k
    · subst h
      have hins : alistInsert k0 v ((k0, v0) :: tl) = (k0, v) :: tl := by
        simp [alistInsert]
      rw [hins]
      unfold keysNodup
      simp only [List.map_cons]
      exact List.nodup_cons.2 ⟨hhd, htl⟩
    · have hins : alistInsert k v ((k0, v0) :: tl) = (k0, v0) :: alistInsert k v tl := by
        simp [alistInsert, h]
      rw [hins]
      unfold keysNodup
      simp only [List.map_cons]
      refine List.nodup_cons.2 ⟨?_, ih htl'⟩
      intro hmem
      rcases mem_keys_alistInsert k k0 v tl hmem with h1 | h1
      · exact h h1
      · exact hhd h1

theorem alistLookup_mem {α β : Type} [DecidableEq α] (m : List (α × β)) (k : α) (v : β)
    (h : alistLookup m k = some v) : (k, v) ∈ m := by
  induction m with
  | nil => simp [alistLookup] at h
  | cons hd tl ih =>
    obtain ⟨k0, v0⟩ := hd
    by_cases hk : k0 = k
    · subst hk
      have h' : v0 = v := by simpa [alistLookup] using h
      subst h'
      exact List.mem_cons_self _ _
    · simp only [alistLookup, if_neg hk] at h
      exact List.mem_cons_of_mem _ (ih h)

/-! ## Preservation lemmas for the execution cycle

`execute` only touches the registered entries and the warning sink; the
signal log, the accumulated history, the connection registries and the sent
sink pass through it unchanged. -/

theorem execLoop_preserves (env : Env) (sigs : SignalMap) (secs : SignalMap) (st st' : S)
    (h : execLoop env sigs secs st = .ok st') :
    st'.signals = st.signals ∧ st'.history = st.history ∧ st'.sent = st.sent ∧
    st'.registeredPortfolios = st.registeredPortfolios ∧
    st'.registeredHistories = st.registeredHistories ∧ st'.running = st.running := by
  induction secs generalizing st with
  | nil =>
    simp only [execLoop] at h
    injection h with h2
    subst h2
    exact ⟨rfl, rfl, rfl, rfl, rfl, rfl⟩
  | cons hd tl ih =>
    obtain ⟨sec, sig⟩ := hd
    simp only [execLoop] at h
    cases hap : applySecurity env sigs sec sig st st.portfolios with
    | error e => rw [hap] at h; exact Except.noConfusion h
    | ok r =>
      rw [hap] at h
      obtain ⟨slots', ws⟩ := r
      exact ih { st with portfolios := slots', warnings := st.warnings ++ ws } h

theorem execute_preserves (env : Env) (st st' : S) (sigs : SignalMap)
    (h : execute env st = .ok (st', sigs)) :
    st'.signals = st.signals ∧ st'.history = st.history ∧ st'.sent = st.sent ∧
    st'.registeredPortfolios = st.registeredPortfolios ∧
    st'.registeredHistories = st.registeredHistories ∧ st'.running = st.running ∧
    sigs = strategySignals env st := by
  simp only [execute] at h
  cases hl : st.history.df.getLast? with
  | none => rw [hl] at h; exact Except.noConfusion h
  | some idx =>
    rw [hl] at h
    cases hel : execLoop env (strategySignals env st) (strategySignals env st) st with
    | error e => rw [hel] at h; exact Except.noConfusion h
    | ok st1 =>
      rw [hel] at h
      injection h with h2
      have h3 : st1 = st' := congrArg Prod.fst h2
      have h4 : strategySignals env st = sigs := congrArg Prod.snd h2
      have hp := execLoop_preserves env (strategySignals env st) (strategySignals env st) st st1 hel
      rw [← h3, ← h4]
      exact ⟨hp.1, hp.2.1, hp.2.2.1, hp.2.2.2.1, hp.2.2.2.2.1, hp.2.2.2.2.2, rfl⟩

/-- A successful `_consume` iteration appends exactly its cycle's mapping to
the signal log and leaves the registries and the sent sink unchanged. -/
theorem step_fields (env : Env) (b : HVal) (st st' : S) (sigs : SignalMap)
    (h : step env b st = .ok (st', sigs)) :
    st'.signals = st.signals ++ [sigs] ∧ st'.sent = st.sent ∧
    st'.registeredPortfolios = st.registeredPortfolios ∧
    st'.registeredHistories = st.registeredHistories := by
  cases hia : iaddDyn st.history b with
  | error e => simp [step, hia] at h
  | ok h1 =>
    cases hex : execute env { st with history := h1 } with
    | error e => simp [step, hia, hex] at h
    | ok r =>
      obtain ⟨st1, sigs1⟩ := r
      simp only [step, hia, hex, Except.ok.injEq, Prod.mk.injEq] at h
      obtain ⟨h3, h4⟩ := h
      have hp := execute_preserves env { st with history := h1 } st1 sigs1 hex
      rw [← h3, ← h4]
      exact ⟨by rw [hp.1], hp.2.2.1, hp.2.2.2.1, hp.2.2.2.2.1⟩

/-! ## CLAIM C9 -/

/-- CLAIM C9 — counterexample.  The claim states that the concatenation
performed by `History.__iadd__` "does not produce a duplicate
(time, instrument) key already present from the same batch".  Concretely:
a history holding the key `(1, "AAPL")` to which a batch holding the same
key is appended ends up with that key twice — `pd.concat` performs no
deduplication, so the claim as stated is false. -/
theorem c9_dedup_counterexample :
    History.keyCount
      (History.iadd ⟨[⟨1, "AAPL", 100⟩], ["AAPL"]⟩ ⟨[⟨1, "AAPL", 101⟩], ["AAPL"]⟩)
      1 "AAPL" = 2 := by decide

/-- CLAIM C9 — amended.  During a run the accumulated history is monotonically
growing: `History.__iadd__` appends the batch's rows after the existing rows
(`(h += b).df = h.df ++ b.df`), so existing rows are never removed or
shrunk, and each successful iteration of the consumption loop
(`StrategyManager._consume`) extends the history dataframe with exactly the
batch's rows; but no deduplication is performed — the multiplicity of every
`(time, instrument)` key in the result is the sum of its multiplicities in
the old history and in the batch. -/
theorem c9_iadd_appends (h b : History) :
    (History.iadd h b).df = h.df ++ b.df ∧
    (∀ (t : Nat) (s : String),
      History.keyCount (History.iadd h b) t s =
        History.keyCount h t s + History.keyCount b t s) ∧
    ∀ (env : Env) (st st' : S) (sigs : SignalMap), st.history = h →
      step env (.history b) st = .ok (st', sigs) → st'.history.df = h.df ++ b.df := by
  refine ⟨rfl, ?_, ?_⟩
  · intro t s
    simp [History.iadd, History.update_schema, History.keyCount, List.filter_append]
  · intro env st st' sigs hh hstep
    cases hex : execute env { st with history := st.history.iadd b } with
    | error e => simp [step, iaddDyn, hex] at hstep
    | ok r =>
      obtain ⟨st1, sigs1⟩ := r
      simp only [step, iaddDyn, hex, Except.ok.injEq, Prod.mk.injEq] at hstep
      obtain ⟨h3, h4⟩ := hstep
      have hp := execute_preserves env { st with history := st.history.iadd b } st1 sigs1 hex
      have h5 : st'.history = st.history.iadd b := by
        rw [← h3]
        exact hp.2.1
      rw [h5, hh]
      rfl

/-- CLAIM C9 — witness for the amended theorem: a concrete consumption step
on a two-portfolio manager extends the history dataframe with exactly the
batch's row. -/
theorem c9_iadd_appends_witness :
    stTwoP.history = stTwoP.history ∧
    step envFail (.history batchA2) stTwoP = .ok (outTwoP, [("A", 1)]) ∧
    (History.iadd stTwoP.history batchA2).df = stTwoP.history.df ++ batchA2.df ∧
    outTwoP.history.df = stTwoP.history.df ++ batchA2.df :=
  ⟨rfl, rfl, (c9_iadd_appends stTwoP.history batchA2).1,
    (c9_iadd_appends stTwoP.history batchA2).2.2 envFail stTwoP outTwoP [("A", 1)] rfl rfl⟩

/-! ## CLAIM C4 -/

/-- CLAIM C4 — the code contradicts the claim.  The claim (and the spec) say
`is_alive()` is the logical AND of the configured listeners' liveness with
an unconfigured listener vacuously alive, and in particular that a manager
with no listeners returns true rather than failing.  The code evaluates
`self.server.is_alive()` before the `not self.server` guard, so whenever the
first listener whose liveness is consulted is unconfigured (`None`) the call
raises `AttributeError` instead: with no listeners, with only a live
request/response listener (the push listener is then consulted), and with
only a push listener.  Only fully-configured managers — and the accidental
short-circuit when the request/response listener is configured but dead —
return a boolean, and there the result does match the AND of the liveness
flags.  The dead `or not self.server` disjunct shows the intended
`None`-is-vacuously-alive reading, so this is a slip in the code. -/
theorem c4_is_alive_attribute_error :
    GenericManager.is_alive ⟨none, none⟩ = .error .attributeError ∧
    GenericManager.is_alive ⟨some ⟨true⟩, none⟩ = .error .attributeError ∧
    GenericManager.is_alive ⟨none, some ⟨true⟩⟩ = .error .attributeError ∧
    GenericManager.is_alive ⟨some ⟨false⟩, none⟩ = .ok false ∧
    GenericManager.is_alive ⟨some ⟨true⟩, some ⟨true⟩⟩ = .ok true ∧
    GenericManager.is_alive ⟨some ⟨true⟩, some ⟨false⟩⟩ = .ok false ∧
    GenericManager.is_alive ⟨some ⟨false⟩, some ⟨true⟩⟩ = .ok false :=
  ⟨rfl, rfl, rfl, rfl, rfl, rfl, rfl⟩

/-! ## CLAIM C5 -/

/-- CLAIM C5 — counterexample.  The claim states the transport bind completes
before `start()` returns, so that `alive` is true immediately after
`start()` returns.  In the code `start()` only spawns the thread that will
bind; in the state reached when `start()` returns and the spawned thread has
not yet run (`start()` performs no synchronization with it),
`_websocket_server` is still `None` and `alive` is false. -/
theorem c5_alive_after_start_counterexample :
    WSState.alive (WSState.start WSState.init).1 = false := by decide

/-- CLAIM C5 — amended.  `start()` spawns the binding thread and returns
without waiting for the bind; starting from a state with no bound transport
(`_websocket_server is None`, as in a fresh or fully stopped server), `alive`
is still false immediately after `start()` returns, becomes true once the
spawned thread completes the bind, and is false again immediately after
`stop()` returns (the latter from every state). -/
theorem c5_lifecycle (s : WSState) :
    (s.websocketServer = none → WSState.alive (WSState.start s).1 = false) ∧
    WSState.alive (WSState.bindStep (WSState.start s).1) = true ∧
    WSState.alive (WSState.stop s).1 = false := by
  refine ⟨?_, ?_, ?_⟩
  · intro h
    simp [WSState.start, WSState.alive, h]
  · simp [WSState.start, WSState.bindStep, WSState.alive]
  · by_cases h : s.running = false
    · simp [WSState.stop, WSState.alive, h]
    · simp only [WSState.stop, h, if_false]
      by_cases h2 : (match s.websocketServer with | some serving => serving | none => false) = true
      · simp [WSState.alive, h2]
      · simp [WSState.alive, h2]

/-- CLAIM C5 — witness for the amended theorem: instantiated at the freshly
constructed server, where the hypothesis `websocketServer = none` holds. -/
theorem c5_lifecycle_witness :
    WSState.init.websocketServer = none ∧
    WSState.alive (WSState.start WSState.init).1 = false ∧
    WSState.alive (WSState.bindStep (WSState.start WSState.init).1) = true ∧
    WSState.alive (WSState.stop WSState.init).1 = false :=
  ⟨rfl, (c5_lifecycle WSState.init).1 rfl, (c5_lifecycle WSState.init).2.1,
    (c5_lifecycle WSState.init).2.2⟩

/-! ## CLAIM C6 -/

/-- CLAIM C6 — counterexample.  For a connection without a send capability
asking for a channel that is not in the registry, the code signals
"Invalid websocket connection": the send-capability check runs first, not
the channel-existence check the claim puts first (the claim's order would
signal the unknown channel here, as `on_connect_claimOrder` shows). -/
theorem c6_order_counterexample :
    WebsocketHandler.on_connect ⟨[("prices", 0)], []⟩ ⟨0, false⟩ "nochannel" =
      .error (.valueError "Invalid websocket connection") ∧
    on_connect_claimOrder ⟨[("prices", 0)], []⟩ ⟨0, false⟩ "nochannel" =
      .error (.valueError "unknown channel") :=
  ⟨rfl, rfl⟩

/-- CLAIM C6 — amended.  `on_connect` first validates that the connection
object exposes a send capability and signals "invalid connection"
(`ValueError("Invalid websocket connection")`) if it does not, then
validates that the channel exists in the registry and signals "unknown
channel" (`ValueError("Invalid endpoint")`) if it does not, and only when
both checks pass appends the connection to that channel's subscriber list,
leaving every other channel's subscriber list unchanged; when either check
fails the error is signalled before any mutation, so the subscriber lists
are unchanged. -/
theorem c6_on_connect (h : WebsocketHandler) (ws : Conn) (endpoint : String) :
    (ws.hasSend = false →
      WebsocketHandler.on_connect h ws endpoint =
        .error (.valueError "Invalid websocket connection")) ∧
    (ws.hasSend = true → h.hasEndpoint endpoint = false →
      WebsocketHandler.on_connect h ws endpoint = .error (.valueError "Invalid endpoint")) ∧
    (ws.hasSend = true → h.hasEndpoint endpoint = true →
      WebsocketHandler.on_connect h ws endpoint =
        .ok { h with websockets := wsSubscribe h.websockets endpoint ws } ∧
      alistLookup (wsSubscribe h.websockets endpoint ws) endpoint =
        some ((alistLookup h.websockets endpoint).getD [] ++ [ws]) ∧
      ∀ other : String, other ≠ endpoint →
        alistLookup (wsSubscribe h.websockets endpoint ws) other =
          alistLookup h.websockets other) := by
  refine ⟨?_, ?_, ?_⟩
  · intro hsend
    simp [WebsocketHandler.on_connect, hsend]
  · intro hsend hep
    simp [WebsocketHandler.on_connect, hsend, hep]
  · intro hsend hep
    refine ⟨by simp [WebsocketHandler.on_connect, hsend, hep], ?_, ?_⟩
    · exact alistLookup_insert_self endpoint _ h.websockets
    · intro other hother
      exact alistLookup_insert_ne endpoint other _ h.websockets hother

/-- CLAIM C6 — witness for the amended theorem: a registry with channel
"prices" and one existing subscriber; a valid connection subscribing to
"prices" is appended to its list, the "other" channel's list is untouched,
and a send-incapable connection is rejected. -/
theorem c6_on_connect_witness :
    ((⟨1, true⟩ : Conn).hasSend = true ∧
      (⟨[("prices", 0)], [("prices", [⟨0, true⟩]), ("other", [])]⟩ :
        WebsocketHandler).hasEndpoint "prices" = true ∧
      (WebsocketHandler.on_connect
          ⟨[("prices", 0)], [("prices", [⟨0, true⟩]), ("other", [])]⟩ ⟨1, true⟩ "prices" =
        .ok { endpoints := [("prices", 0)],
              websockets :=
                wsSubscribe [("prices", [⟨0, true⟩]), ("other", [])] "prices" ⟨1, true⟩ } ∧
      alistLookup (wsSubscribe [("prices", [⟨0, true⟩]), ("other", [])] "prices" ⟨1, true⟩)
          "prices" = some [⟨0, true⟩, ⟨1, true⟩] ∧
      ∀ other : String, other ≠ "prices" →
        alistLookup (wsSubscribe [("prices", [⟨0, true⟩]), ("other", [])] "prices" ⟨1, true⟩)
            other = alistLookup [("prices", [⟨0, true⟩]), ("other", [])] other)) ∧
    ((⟨2, false⟩ : Conn).hasSend = false ∧
      WebsocketHandler.on_connect
          ⟨[("prices", 0)], [("prices", [⟨0, true⟩]), ("other", [])]⟩ ⟨2, false⟩ "prices" =
        .error (.valueError "Invalid websocket connection")) :=
  ⟨⟨rfl, rfl,
    (c6_on_connect ⟨[("prices", 0)], [("prices", [⟨0, true⟩]), ("other", [])]⟩
      ⟨1, true⟩ "prices").2.2 rfl rfl⟩,
   rfl,
    (c6_on_connect ⟨[("prices", 0)], [("prices", [⟨0, true⟩]), ("other", [])]⟩
      ⟨2, false⟩ "prices").1 rfl⟩

/-! ## CLAIM C7 -/

theorem httpRegistryInv_set_endpoint (h : HTTPHandler) (r : String) (m : Method)
    (f : Nat) (hinv : httpRegistryInv h) : httpRegistryInv (h.set_endpoint r m f) := by
  obtain ⟨houter, hinner⟩ := hinv
  constructor
  · exact keysNodup_alistInsert r _ h.endpoints houter
  · intro e he
    rcases mem_alistInsert r _ h.endpoints e he with h1 | h1
    · subst h1
      refine keysNodup_alistInsert m f _ ?_
      cases hlk : alistLookup h.endpoints r with
      | none => simp [keysNodup]
      | some inner0 =>
        simpa using hinner (r, inner0) (alistLookup_mem h.endpoints r inner0 hlk)
    · exact hinner e h1

theorem httpRegistryInv_foldl (regs : List (String × Method × Nat)) (h : HTTPHandler)
    (hinv : httpRegistryInv h) :
    httpRegistryInv (regs.foldl (fun h r => h.set_endpoint r.1 r.2.1 r.2.2) h) := by
  induction regs generalizing h with
  | nil => exact hinv
  | cons hd tl ih =>
    exact ih _ (httpRegistryInv_set_endpoint h hd.1 hd.2.1 hd.2.2 hinv)

theorem wsKeysNodup_foldl (regs : List (String × Nat)) (h : WebsocketHandler)
    (hinv : keysNodup h.endpoints) :
    keysNodup ((regs.foldl (fun h r => h.set_endpoint r.1 r.2) h).endpoints) := by
  induction regs generalizing h with
  | nil => exact hinv
  | cons hd tl ih =>
    exact ih _ (keysNodup_alistInsert hd.1 hd.2 h.endpoints hinv)

/-- CLAIM C7 — counterexample.  Registering the same `(route, method)` key
twice does overwrite (last write wins), but `HTTPHandler.set_endpoint`
contains no logging call, so no warning is logged — the log is empty after
the duplicate registration, contradicting the claim's "a warning is
logged". -/
theorem c7_no_warning_counterexample :
    (HTTPHandler.set_endpoint
        (HTTPHandler.set_endpoint HTTPHandler.empty "history" .get 1) "history" .get 2).logMessages
      = [] ∧
    (HTTPHandler.set_endpoint
        (HTTPHandler.set_endpoint HTTPHandler.empty "history" .get 1) "history" .get 2).lookup
        "history" .get = some 2 :=
  ⟨rfl, rfl⟩

/-- CLAIM C7 — amended.  When `HTTPHandler.set_endpoint` is called with a
`(route name, method)` key that is already registered, the new handler
silently overwrites the prior one (last write wins); no warning — indeed no
log message at all — is emitted.  After any sequence of registrations the
registry holds at most one handler per `(name, verb)` key, and the push
registry at most one handler per route name. -/
theorem c7_set_endpoint_overwrites (h : HTTPHandler) (r : String) (m : Method) (f : Nat)
    (regs : List (String × Method × Nat)) (wregs : List (String × Nat)) :
    (h.set_endpoint r m f).lookup r m = some f ∧
    (h.set_endpoint r m f).logMessages = h.logMessages ∧
    httpRegistryInv (httpRegisterAll regs) ∧
    keysNodup (wsRegisterAll wregs).endpoints := by
  refine ⟨?_, rfl, ?_, ?_⟩
  · unfold HTTPHandler.set_endpoint HTTPHandler.lookup
    rw [alistLookup_insert_self]
    simp [alistLookup_insert_self]
  · exact httpRegistryInv_foldl regs HTTPHandler.empty
      ⟨by simp [keysNodup, HTTPHandler.empty], by simp [HTTPHandler.empty]⟩
  · exact wsKeysNodup_foldl wregs WebsocketHandler.empty
      (by simp [keysNodup, WebsocketHandler.empty])

/-- CLAIM C7 — witness: the amended theorem instantiated at a concrete
handler and a concrete registration sequence containing a duplicate key. -/
theorem c7_set_endpoint_overwrites_witness :
    (HTTPHandler.set_endpoint ⟨[("history", [(.get, 7)])], []⟩ "history" .get 9).lookup
        "history" .get = some 9 ∧
    (HTTPHandler.set_endpoint ⟨[("history", [(.get, 7)])], []⟩ "history" .get 9).logMessages
        = ([] : List String) ∧
    httpRegistryInv (httpRegisterAll
        [("history", .get, 1), ("history", .get, 2), ("signals", .post, 3)]) ∧
    keysNodup (wsRegisterAll [("prices", 1), ("prices", 2)]).endpoints :=
  c7_set_endpoint_overwrites ⟨[("history", [(.get, 7)])], []⟩ "history" .get 9
    [("history", .get, 1), ("history", .get, 2), ("signals", .post, 3)]
    [("prices", 1), ("prices", 2)]

/-! ## CLAIM C2 -/

theorem applySecurity_all_portfolio (env : Env) (sigs : SignalMap) (sec : Security)
    (sig : Signal) (st : S) (slots : List Slot)
    (hP : ∀ s ∈ slots, s.isPortfolio = true) :
    applySecurity env sigs sec sig st slots =
      .ok (slots.map (Slot.tradeOnce env sec sig), secWarnings env sec sig slots) := by
  induction slots with
  | nil => rfl
  | cons hd tl ih =>
    have hhd := hP hd (List.mem_cons_self _ _)
    have htl : ∀ s ∈ tl, s.isPortfolio = true := fun s hs => hP s (List.mem_cons_of_mem _ hs)
    cases hd with
    | other pos => simp [Slot.isPortfolio] at hhd
    | portfolio p =>
      cases htr : env.trade p sec sig with
      | ok p' => simp [applySecurity, htr, ih htl, Slot.tradeOnce, secWarnings]
      | error msg => simp [applySecurity, htr, ih htl, Slot.tradeOnce, secWarnings]

theorem slot_tradeOnce_isPortfolio (env : Env) (sec : Security) (sig : Signal) (s : Slot)
    (hs : s.isPortfolio = true) : (Slot.tradeOnce env sec sig s).isPortfolio = true := by
  cases s with
  | portfolio p =>
    cases htr : env.trade p sec sig <;> simp [Slot.tradeOnce, htr, Slot.isPortfolio]
  | other pos => simp [Slot.isPortfolio] at hs

theorem execLoop_all_portfolio (env : Env) (sigs : SignalMap) (secs : SignalMap) (st : S)
    (hP : ∀ s ∈ st.portfolios, s.isPortfolio = true) :
    execLoop env sigs secs st =
      .ok { st with
            portfolios := loopSlots env secs st.portfolios,
            warnings := st.warnings ++ loopWarnings env secs st.portfolios } := by
  induction secs generalizing st with
  | nil => simp [execLoop, loopSlots, loopWarnings]
  | cons hd tl ih =>
    obtain ⟨sec, sig⟩ := hd
    have hP' : ∀ s ∈ st.portfolios.map (Slot.tradeOnce env sec sig), s.isPortfolio = true := by
      intro s hs
      rcases List.mem_map.1 hs with ⟨s0, hs0, hmap⟩
      rw [← hmap]
      exact slot_tradeOnce_isPortfolio env sec sig s0 (hP s0 hs0)
    have h1 := applySecurity_all_portfolio env sigs sec sig st st.portfolios hP
    have hmain : execLoop env sigs ((sec, sig) :: tl) st =
        execLoop env sigs tl
          { st with
            portfolios := st.portfolios.map (Slot.tradeOnce env sec sig),
            warnings := st.warnings ++ secWarnings env sec sig st.portfolios } := by
      simp [execLoop, h1]
    rw [hmain,
      ih { st with
            portfolios := st.portfolios.map (Slot.tradeOnce env sec sig),
            warnings := st.warnings ++ secWarnings env sec sig st.portfolios } hP']
    simp [loopSlots, loopWarnings, List.append_assoc]

theorem applyAll_tradeOnce (env : Env) (sec : Security) (sig : Signal) (rest : SignalMap)
    (s : Slot) :
    Slot.applyAll env rest (Slot.tradeOnce env sec sig s) =
      Slot.applyAll env ((sec, sig) :: rest) s := by
  cases s with
  | other pos => rfl
  | portfolio p =>
    cases htr : env.trade p sec sig with
    | ok p' => simp [Slot.tradeOnce, Slot.applyAll, applyAllSignals, htr]
    | error e => simp [Slot.tradeOnce, Slot.applyAll, applyAllSignals, htr]

theorem loopSlots_eq_map (env : Env) (secs : SignalMap) (slots : List Slot) :
    loopSlots env secs slots = slots.map (Slot.applyAll env secs) := by
  induction secs generalizing slots with
  | nil =>
    have hfun : Slot.applyAll env [] = fun s => s := by
      funext s
      cases s <;> rfl
    simp [loopSlots, hfun]
  | cons hd tl ih =>
    obtain ⟨sec, sig⟩ := hd
    have hfun : (Slot.applyAll env tl ∘ Slot.tradeOnce env sec sig) =
        Slot.applyAll env ((sec, sig) :: tl) := by
      funext s
      exact applyAll_tradeOnce env sec sig tl s
    rw [loopSlots, ih, List.map_map, hfun]

theorem mem_secWarnings (env : Env) (sec : Security) (sig : Signal) (slots : List Slot)
    (p : Portfolio) (hp : Slot.portfolio p ∈ slots) (e : String)
    (htr : env.trade p sec sig = .error e) : e ∈ secWarnings env sec sig slots := by
  induction slots with
  | nil => cases hp
  | cons hd tl ih =>
    rcases List.mem_cons.1 hp with h1 | h1
    · rw [← h1]
      simp [secWarnings, htr]
    · cases hd with
      | portfolio q =>
        simp only [secWarnings]
        exact List.mem_append_right _ (ih h1)
      | other pos =>
        simpa [secWarnings] using ih h1

theorem mem_loopWarnings (env : Env) (secs : SignalMap) (slots : List Slot)
    (p : Portfolio) (hp : Slot.portfolio p ∈ slots) (e : String)
    (he : e ∈ (applyAllSignals env secs p).2) : e ∈ loopWarnings env secs slots := by
  induction secs generalizing slots p with
  | nil => simp [applyAllSignals] at he
  | cons hd tl ih =>
    obtain ⟨sec, sig⟩ := hd
    simp only [loopWarnings]
    cases htr : env.trade p sec sig with
    | ok p' =>
      have he' : e ∈ (applyAllSignals env tl p').2 := by
        simpa [applyAllSignals, htr] using he
      have hp' : Slot.portfolio p' ∈ slots.map (Slot.tradeOnce env sec sig) := by
        have hm := List.mem_map_of_mem (Slot.tradeOnce env sec sig) hp
        simpa [Slot.tradeOnce, htr] using hm
      exact List.mem_append_right _ (ih _ _ hp' he')
    | error e0 =>
      have he' : e = e0 ∨ e ∈ (applyAllSignals env tl p).2 := by
        simpa [applyAllSignals, htr] using he
      rcases he' with h1 | h1
      · subst h1
        exact List.mem_append_left _ (mem_secWarnings env sec sig slots p hp e htr)
      · have hp' : Slot.portfolio p ∈ slots.map (Slot.tradeOnce env sec sig) := by
          have hm := List.mem_map_of_mem (Slot.tradeOnce env sec sig) hp
          simpa [Slot.tradeOnce, htr] using hm
        exact List.mem_append_right _ (ih _ _ hp' h1)

/-- CLAIM C2 — confirmed.  During one `StrategyManager.execute` cycle on a
manager whose registered entries are all `Portfolio` instances (the only
kind `register` is fed in this subsystem) and whose history is non-empty,
`execute` returns normally with the full signal mapping produced by the
strategy; every registered portfolio ends up having had *every* signal of
the cycle applied to it independently — a domain error (`ValueError`) on one
`(instrument, signal, portfolio)` application keeps that portfolio unchanged
for that signal and stops nothing else — and every domain error message
raised by any application is logged in the warning sink. -/
theorem c2_execute_continues (env : Env) (st : S)
    (hP : ∀ s ∈ st.portfolios, s.isPortfolio = true)
    (hne : st.history.df ≠ []) :
    execute env st =
      .ok ({ st with
              portfolios := st.portfolios.map (Slot.applyAll env (strategySignals env st)),
              warnings := st.warnings ++ loopWarnings env (strategySignals env st) st.portfolios },
        strategySignals env st) ∧
    ∀ p : Portfolio, Slot.portfolio p ∈ st.portfolios →
      ∀ e ∈ (applyAllSignals env (strategySignals env st) p).2,
        e ∈ st.warnings ++ loopWarnings env (strategySignals env st) st.portfolios := by
  constructor
  · have hl := List.getLast?_eq_getLast_of_ne_nil hne
    simp only [execute, hl]
    rw [execLoop_all_portfolio env _ _ st hP, loopSlots_eq_map]
  · intro p hp e he
    exact List.mem_append_right _ (mem_loopWarnings env _ st.portfolios p hp e he)

/-- CLAIM C2 — witness: a manager with two registered portfolios, a strategy
emitting one signal, and an application that always raises a domain error;
both portfolios are processed, both errors are logged, and the full mapping
is returned. -/
theorem c2_execute_continues_witness :
    (∀ s ∈ stTwoP.portfolios, s.isPortfolio = true) ∧
    stTwoP.history.df ≠ [] ∧
    (execute envFail stTwoP =
      .ok ({ stTwoP with
              portfolios :=
                stTwoP.portfolios.map (Slot.applyAll envFail (strategySignals envFail stTwoP)),
              warnings :=
                stTwoP.warnings
                  ++ loopWarnings envFail (strategySignals envFail stTwoP) stTwoP.portfolios },
        strategySignals envFail stTwoP) ∧
    ∀ p : Portfolio, Slot.portfolio p ∈ stTwoP.portfolios →
      ∀ e ∈ (applyAllSignals envFail (strategySignals envFail stTwoP) p).2,
        e ∈ stTwoP.warnings
          ++ loopWarnings envFail (strategySignals envFail stTwoP) stTwoP.portfolios) :=
  ⟨by decide, by decide, c2_execute_continues envFail stTwoP (by decide) (by decide)⟩

/-! ## CLAIM C1 -/

theorem getElem?_append_len {α : Type} (l t : List α) (x : α) :
    (l ++ x :: t)[l.length]? = some x := by
  induction l with
  | nil => simp
  | cons a l ih => simpa using ih

/-- The consumption loop appends exactly one signal-log entry per drawn
batch, in the order the batches are drawn: after a successful run over `bs`
the log has grown by `bs.length` entries, the old log is a prefix, and the
entry at offset `i` is precisely the mapping produced by the `i`-th cycle
(the `step` on batch `i` from the state the first `i` batches led to). -/
theorem steps_signal_log (env : Env) (bs : List HVal) (st st' : S)
    (h : steps env bs st = .ok st') :
    st'.signals.length = st.signals.length + bs.length ∧
    (∃ t, st'.signals = st.signals ++ t) ∧
    ∀ i (hi : i < bs.length),
      ∃ sti stbi sigsi,
        steps env (bs.take i) st = .ok sti ∧
        step env (bs.get ⟨i, hi⟩) sti = .ok (stbi, sigsi) ∧
        st'.signals[st.signals.length + i]? = some sigsi := by
  induction bs generalizing st with
  | nil =>
    simp only [steps] at h
    injection h with h2
    subst h2
    refine ⟨by simp, ⟨[], by simp⟩, ?_⟩
    intro i hi
    exact absurd hi (Nat.not_lt_zero i)
  | cons b rest ih =>
    simp only [steps] at h
    cases hstep : step env b st with
    | error e => rw [hstep] at h; exact Except.noConfusion h
    | ok r =>
      rw [hstep] at h
      obtain ⟨st1, sigs⟩ := r
      have hsig1 := (step_fields env b st st1 sigs hstep).1
      have hlen1 : st1.signals.length = st.signals.length + 1 := by
        rw [hsig1]; simp
      obtain ⟨hlen, ⟨t, ht⟩, horder⟩ := ih st1 h
      refine ⟨?_, ?_, ?_⟩
      · rw [hlen, hlen1]
        simp
        omega
      · refine ⟨sigs :: t, ?_⟩
        rw [ht, hsig1, List.append_assoc]
        rfl
      · intro i hi
        cases i with
        | zero =>
          refine ⟨st, st1, sigs, by simp [steps], by simpa using hstep, ?_⟩
          rw [ht, hsig1, List.append_assoc]
          simpa using getElem?_append_len st.signals t sigs
        | succ j =>
          have hj : j < rest.length := by
            simp only [List.length_cons] at hi
            omega
          obtain ⟨sti, stbi, sigsi, h3, h4, h5⟩ := horder j hj
          refine ⟨sti, stbi, sigsi, ?_, ?_, ?_⟩
          · simp only [List.take_succ_cons, steps, hstep]
            exact h3
          · simpa using h4
          · rw [show st.signals.length + (j + 1) = st1.signals.length + j from by omega]
            exact h5

/-- The synchronous consumption loop (`_consume`) on a fresh signal log
appends exactly one entry per drawn value, in draw order: entry `i` is the
mapping the `i`-th cycle produced. -/
theorem consume_signal_log (env : Env) (bs : List HVal) (st st' : S)
    (hc : consume env bs st = .ok st') (hfresh : st.signals = []) :
    st'.signals.length = bs.length ∧
    ∀ i (hi : i < bs.length),
      ∃ sti stbi sigsi,
        steps env (bs.take i) st = .ok sti ∧
        step env (bs.get ⟨i, hi⟩) sti = .ok (stbi, sigsi) ∧
        st'.signals[i]? = some sigsi := by
  simp only [consume] at hc
  cases hs : steps env bs st with
  | error e => rw [hs] at hc; exact Except.noConfusion hc
  | ok stS =>
    rw [hs] at hc
    injection hc with h2
    obtain ⟨hlen, hpre, horder⟩ := steps_signal_log env bs st stS hs
    have hsig : st'.signals = stS.signals := by rw [← h2]
    constructor
    · rw [hsig, hlen, hfresh]
      simp
    · intro i hi
      obtain ⟨sti, stbi, sigsi, h3, h4, h5⟩ := horder i hi
      refine ⟨sti, stbi, sigsi, h3, h4, ?_⟩
      rw [hsig]
      rw [hfresh] at h5
      simpa using h5

/-- CLAIM C1 — counterexample.  The claim quantifies over *every* finite
source of `N` update batches consumed by non-threaded `run`, but `run` also
accepts an `AsyncGenerator` (dispatched to
`asyncio.run(self._async_consume(...))`), and `_async_consume` breaks out of
its loop whenever `self.running` is clear — which it always is on the
non-threaded path, since only the threaded branch sets it.  Concretely: a
one-batch async source on a fresh manager makes `run` return normally with
zero signal-log entries, not one. -/
theorem c1_async_counterexample :
    stOneP.signals = [] ∧
    (Subscription.asyncGen [batchA2]).numBatches = 1 ∧
    run envFail (.asyncGen [batchA2]) stOneP = .ok { stOneP with running := false } ∧
    ({ stOneP with running := false } : S).signals.length = 0 :=
  ⟨rfl, rfl, rfl, rfl⟩

/-- CLAIM C1 — amended.  For every finite *synchronous* source of `N` update
batches (generator of `History` batches, `DataFrame`, or `History`), when
`StrategyManager.run` in the non-threaded mode returns normally on a manager
whose signal log starts empty, the log ends with exactly `N` entries, one
per batch, in the exact order the batches were drawn: entry `i` is the
mapping the `i`-th consumption cycle produced from batch `i`; the
environment — in particular the portfolio signal application — is arbitrary,
so this holds regardless of how many portfolio-apply calls inside the cycles
raised a domain error (those are caught inside `execute` and only logged).
For an `AsyncGenerator` source, however, non-threaded `run` returns with an
*empty* signal log whenever the run flag is clear (as it is for every
non-threaded `run`, which never sets it): `_async_consume` checks the flag
before processing each drawn batch and breaks immediately. -/
theorem c1_run_signal_log (env : Env) (sub : Subscription) (st st' : S)
    (hrun : run env sub st = .ok st') (hfresh : st.signals = []) :
    (sub.isAsync = false →
      st'.signals.length = sub.numBatches ∧
      ∀ i (hi : i < sub.numBatches),
        ∃ sti stbi sigsi,
          steps env (sub.hvals.take i) st = .ok sti ∧
          step env (sub.hvals.get ⟨i, hi⟩) sti = .ok (stbi, sigsi) ∧
          st'.signals[i]? = some sigsi) ∧
    (sub.isAsync = true → st.running = false → st'.signals = []) := by
  constructor
  · intro hsync
    have hc : consume env sub.hvals st = .ok st' := by
      cases sub with
      | gen bs => exact hrun
      | dataFrame rows => exact hrun
      | hist hh => exact hrun
      | asyncGen bs => simp [Subscription.isAsync] at hsync
    exact consume_signal_log env sub.hvals st st' hc hfresh
  · intro hasync hflag
    cases sub with
    | gen bs => simp [Subscription.isAsync] at hasync
    | dataFrame rows => simp [Subscription.isAsync] at hasync
    | hist hh => simp [Subscription.isAsync] at hasync
    | asyncGen bs =>
      have hbreak : run env (.asyncGen bs) st = .ok { st with running := false } := by
        cases bs with
        | nil => simp [run, asyncConsume, asyncSteps]
        | cons b rest => simp [run, asyncConsume, asyncSteps, hflag]
      rw [hbreak] at hrun
      have h2 := Except.ok.inj hrun
      rw [← h2]
      exact hfresh

/-- CLAIM C1 — witness: a two-batch synchronous generator source fed to a
fresh manager with one registered portfolio and an always-failing portfolio
application yields exactly two log entries in draw order; the same manager
fed a one-batch async source yields an empty log. -/
theorem c1_run_signal_log_witness :
    (run envFail subG stOneP = .ok outOneP ∧ stOneP.signals = [] ∧
      subG.isAsync = false ∧
      (outOneP.signals.length = subG.numBatches ∧
       ∀ i (hi : i < subG.numBatches),
         ∃ sti stbi sigsi,
           steps envFail (subG.hvals.take i) stOneP = .ok sti ∧
           step envFail (subG.hvals.get ⟨i, hi⟩) sti = .ok (stbi, sigsi) ∧
           outOneP.signals[i]? = some sigsi)) ∧
    (run envFail (.asyncGen [batchA2]) stOneP = .ok { stOneP with running := false } ∧
      (Subscription.asyncGen [batchA2]).isAsync = true ∧ stOneP.running = false ∧
      ({ stOneP with running := false } : S).signals = []) :=
  ⟨⟨rfl, rfl, rfl, (c1_run_signal_log envFail subG stOneP outOneP rfl rfl).1 rfl⟩,
   rfl, rfl, rfl,
    (c1_run_signal_log envFail (.asyncGen [batchA2]) stOneP
      { stOneP with running := false } rfl rfl).2 rfl rfl⟩

/-! ## CLAIM C3, C8, C10 — MessageHandler lemmas -/

/-- `run` on a `History` subscription: an empty dataframe makes the loop a
no-op; a non-empty one raises `ValueError` on the first batch, because
`iterrows()` yields tuples and `History.__iadd__` rejects non-`History`
arguments. -/
theorem run_hist_cases (env : Env) (hh : History) (st : S) :
    (hh.df = [] ∧ run env (.hist hh) st = .ok { st with running := false }) ∨
    (hh.df ≠ [] ∧ run env (.hist hh) st = .error (.valueError "Invalid type for other")) := by
  cases hdf : hh.df with
  | nil =>
    left
    refine ⟨rfl, ?_⟩
    simp [run, consume, steps, Subscription.hvals, hdf]
  | cons r rows =>
    right
    refine ⟨by simp [hdf], ?_⟩
    simp [run, consume, steps, step, iaddDyn, Subscription.hvals, hdf]

theorem registerPortfolioMsg_ok_fields (st : S) (d : Option PortfolioDesc) (st1 : S)
    (p : Portfolio) (h : registerPortfolioMsg st d = .ok (st1, p)) :
    st1.sent = st.sent ∧ st1.registeredHistories = st.registeredHistories ∧
    st1.history = st.history := by
  cases d with
  | none => simp [registerPortfolioMsg, portfolioFromKwargs] at h
  | some d0 =>
    cases d0 with
    | wellFormed pos =>
      simp only [registerPortfolioMsg, portfolioFromKwargs, Except.ok.injEq,
        Prod.mk.injEq] at h
      obtain ⟨h1, _⟩ := h
      rw [← h1]
      exact ⟨rfl, rfl, rfl⟩
    | malformed => simp [registerPortfolioMsg, portfolioFromKwargs] at h

theorem registerHistoryMsg_ok_sent (st : S) (d : Option HistoryDesc) (st1 : S)
    (hh : History) (h : registerHistoryMsg st d = .ok (st1, hh)) :
    st1.sent = st.sent ∧ st1.registeredHistories = st.registeredHistories := by
  cases d with
  | none =>
    simp only [registerHistoryMsg, historyFromKwargs, Except.ok.injEq, Prod.mk.injEq] at h
    obtain ⟨h1, _⟩ := h
    rw [← h1]
    exact ⟨rfl, rfl⟩
  | some d0 =>
    cases d0 with
    | wellFormed rows =>
      simp only [registerHistoryMsg, historyFromKwargs, Except.ok.injEq, Prod.mk.injEq] at h
      obtain ⟨h1, _⟩ := h
      rw [← h1]
      exact ⟨rfl, rfl⟩
    | badKwarg => simp [registerHistoryMsg, historyFromKwargs] at h
    | badDfValue => simp [registerHistoryMsg, historyFromKwargs] at h

theorem registerSnapshotMsg_ok_sent (env : Env) (st : S) (d : HistoryDesc) (st1 : S)
    (hh : History) (h : registerSnapshotMsg env st d = .ok (st1, hh)) :
    st1.sent = st.sent ∧ st1.registeredHistories = st.registeredHistories := by
  unfold registerSnapshotMsg at h
  by_cases hemp : st.history.df.isEmpty = true
  · rw [if_pos hemp] at h
    exact registerHistoryMsg_ok_sent st (some d) st1 hh h
  · rw [if_neg hemp] at h
    cases d with
    | badKwarg => simp [historyFromKwargs] at h
    | badDfValue => simp [historyFromKwargs] at h
    | wellFormed rows =>
      simp only [historyFromKwargs] at h
      rcases run_hist_cases env (History.build rows) st with ⟨hdf, hrun⟩ | ⟨hdf, hrun⟩
      · rw [hrun] at h
        simp only [Except.ok.injEq, Prod.mk.injEq] at h
        obtain ⟨h1, _⟩ := h
        rw [← h1]
        exact ⟨rfl, rfl⟩
      · rw [hrun] at h
        exact Except.noConfusion h

theorem process_ok_sent (env : Env) (st : S) (ws : Nat) (msg : Message) (st1 : S)
    (r : String) (h : process env st ws msg = .ok (st1, r)) : st1.sent = st.sent := by
  cases hmp : msg.portfolio with
  | some d =>
    cases hreg : registerPortfolioMsg st (some d) with
    | error e => simp [process, hmp, hreg] at h
    | ok pr =>
      obtain ⟨st2, p⟩ := pr
      simp only [process, hmp, hreg, Except.ok.injEq, Prod.mk.injEq] at h
      obtain ⟨h1, _⟩ := h
      rw [← h1]
      exact (registerPortfolioMsg_ok_fields st (some d) st2 p hreg).1
  | none =>
    cases hmh : msg.history with
    | some d =>
      cases hreg : registerHistoryMsg st (some d) with
      | error e => simp [process, hmp, hmh, hreg] at h
      | ok pr =>
        obtain ⟨st2, hh⟩ := pr
        simp only [process, hmp, hmh, hreg, Except.ok.injEq, Prod.mk.injEq] at h
        obtain ⟨h1, _⟩ := h
        rw [← h1]
        exact (registerHistoryMsg_ok_sent st (some d) st2 hh hreg).1
    | none =>
      cases hms : msg.snapshot with
      | some d =>
        cases hreg : registerSnapshotMsg env st d with
        | error e => simp [process, hmp, hmh, hms, hreg] at h
        | ok pr =>
          obtain ⟨st2, hh⟩ := pr
          simp only [process, hmp, hmh, hms, hreg, Except.ok.injEq, Prod.mk.injEq] at h
          obtain ⟨h1, _⟩ := h
          rw [← h1]
          exact (registerSnapshotMsg_ok_sent env st d st2 hh hreg).1
      | none => simp [process, hmp, hmh, hms] at h

theorem process_error_caught (env : Env) (st : S) (ws : Nat) (msg : Message) (e : PyErr)
    (h : process env st ws msg = .error e) : caughtByHandle e = true := by
  cases hmp : msg.portfolio with
  | some d =>
    cases d with
    | wellFormed pos => simp [process, hmp, registerPortfolioMsg, portfolioFromKwargs] at h
    | malformed =>
      simp only [process, hmp, registerPortfolioMsg, portfolioFromKwargs,
        Except.error.injEq] at h
      rw [← h]
      rfl
  | none =>
    cases hmh : msg.history with
    | some d =>
      cases d with
      | wellFormed rows =>
        simp [process, hmp, hmh, registerHistoryMsg, historyFromKwargs] at h
      | badKwarg =>
        simp only [process, hmp, hmh, registerHistoryMsg, historyFromKwargs,
          Except.error.injEq] at h
        rw [← h]
        rfl
      | badDfValue =>
        simp only [process, hmp, hmh, registerHistoryMsg, historyFromKwargs,
          Except.error.injEq] at h
        rw [← h]
        rfl
    | none =>
      cases hms : msg.snapshot with
      | none =>
        simp only [process, hmp, hmh, hms, Except.error.injEq] at h
        rw [← h]
        rfl
      | some d =>
        simp only [process, hmp, hmh, hms] at h
        unfold registerSnapshotMsg at h
        by_cases hemp : st.history.df.isEmpty = true
        · rw [if_pos hemp] at h
          cases d with
          | wellFormed rows =>
            simp [registerHistoryMsg, historyFromKwargs] at h
          | badKwarg =>
            simp only [registerHistoryMsg, historyFromKwargs, Except.error.injEq] at h
            rw [← h]
            rfl
          | badDfValue =>
            simp only [registerHistoryMsg, historyFromKwargs, Except.error.injEq] at h
            rw [← h]
            rfl
        · rw [if_neg hemp] at h
          cases d with
          | badKwarg =>
            simp only [historyFromKwargs, Except.error.injEq] at h
            rw [← h]
            rfl
          | badDfValue =>
            simp only [historyFromKwargs, Except.error.injEq] at h
            rw [← h]
            rfl
          | wellFormed rows =>
            simp only [historyFromKwargs] at h
            rcases run_hist_cases env (History.build rows) st with ⟨hdf, hrun⟩ | ⟨hdf, hrun⟩
            · rw [hrun] at h
              exact Except.noConfusion h
            · rw [hrun] at h
              have h2 : PyErr.valueError "Invalid type for other" = e := Except.error.inj h
              rw [← h2]
              rfl

/-! ## CLAIM C3 -/

/-- CLAIM C3 — counterexample.  A message that is not parseable JSON makes
`handle` raise `TypeError("Message is not valid JSON")` out of `handle`
itself: the decode error is raised *before* the `try/except (ValueError,
TypeError)` block around `process`, so it is not caught at the handling
boundary, not logged, and not sent back — contradicting the claim that no
error escapes `handle`. -/
theorem c3_decode_error_escapes :
    handle envOk initS 3 (.invalid "oops") =
      .error (.typeError "Message is not valid JSON") := rfl

/-- CLAIM C3 — amended.  For every *parseable* inbound message `handle`
returns normally, in one of exactly two ways.  Either dispatch succeeds,
and the response is sent back to the originating connection (one entry
`(ws, response)` appended to the sent sink, which dispatch itself never
touches); or dispatch signals an error — `process` raises only `ValueError`
or `TypeError`, both caught at `handle`'s boundary — and that error is
*logged* (its text appended to the warning sink) and *sent back to the
originating connection as the error payload* (one entry `(ws, str(e))`
appended to the sent sink).  For a message that is not parseable JSON,
however, the typed decode error is raised out of `handle` (see the
counterexample), so the claim holds only from the dispatch stage on. -/
theorem c3_handle_parseable (env : Env) (st : S) (ws : Nat) (msg : Message) :
    (∃ st1 resp, process env st ws msg = .ok (st1, resp) ∧
      handle env st ws (.valid msg) = .ok (sendMessage st1 ws resp) ∧
      st1.sent = st.sent ∧
      (sendMessage st1 ws resp).sent = st.sent ++ [(ws, resp)]) ∨
    (∃ e, process env st ws msg = .error e ∧ caughtByHandle e = true ∧
      handle env st ws (.valid msg) =
        .ok (sendMessage { st with warnings := st.warnings ++ [errText e] } ws (errText e)) ∧
      (sendMessage { st with warnings := st.warnings ++ [errText e] } ws (errText e)).warnings
        = st.warnings ++ [errText e] ∧
      (sendMessage { st with warnings := st.warnings ++ [errText e] } ws (errText e)).sent
        = st.sent ++ [(ws, errText e)]) := by
  cases hp : process env st ws msg with
  | ok pr =>
    obtain ⟨st1, resp⟩ := pr
    left
    have hsent := process_ok_sent env st ws msg st1 resp hp
    refine ⟨st1, resp, rfl, by simp [handle, hp], hsent, ?_⟩
    simp [sendMessage, hsent]
  | error e =>
    have hc := process_error_caught env st ws msg e hp
    right
    exact ⟨e, rfl, hc, by simp [handle, hp, hc], rfl, rfl⟩

/-! ## CLAIM C8 -/

/-- CLAIM C8 — the code contradicts the claim for the portfolio channel.  On
connect to the portfolio channel with no body, `connect` calls
`self._register_portfolio()` whose default argument is `None`, and
`Portfolio(**None)` raises `TypeError` at the call site; the `except
TypeError` re-raises `TypeError("Message does not contain a valid
portfolio")` out of `connect` — no empty registration is seeded and no
confirmation is returned.  The history channel behaves as claimed:
`History(**pd.DataFrame())` unpacks the empty frame, an empty history is
seeded for the connection and "History connected" is returned.  The
returns-confirmation intent of the portfolio branch (it would return
"Portfolio connected") shows the raise is a slip. -/
theorem c8_connect_eval :
    connect envOk initS 7 "portfolio" =
      .error (.typeError "Message does not contain a valid portfolio") ∧
    connect envOk initS 7 "history" =
      .ok ({ initS with
              history := History.build [],
              registeredHistories := [(7, History.build [])] },
        some "History connected") :=
  ⟨rfl, rfl⟩

/-! ## CLAIM C10 -/

/-- CLAIM C10 — confirmed.  `process` inspects the keys in the fixed order
`portfolio`, `history`, `snapshot` and handles only the first one present:
with a `portfolio` key the outcome is identical to that of a message
carrying only the portfolio — the `history`/`snapshot` payloads are ignored
and, on success, the per-connection registered-history map and the
manager's accumulated history are unchanged; without a `portfolio` key but
with a `history` key the outcome is identical to that of a message carrying
only the history, the `snapshot` payload being ignored. -/
theorem c10_process_precedence (env : Env) (st : S) (ws : Nat) (msg : Message) :
    (∀ d, msg.portfolio = some d →
      process env st ws msg = process env st ws ⟨some d, none, none⟩ ∧
      ∀ st' r, process env st ws msg = .ok (st', r) →
        st'.registeredHistories = st.registeredHistories ∧ st'.history = st.history) ∧
    (msg.portfolio = none → ∀ d, msg.history = some d →
      process env st ws msg = process env st ws ⟨none, some d, none⟩) := by
  obtain ⟨mp, mh, ms⟩ := msg
  refine ⟨?_, ?_⟩
  · intro d hd
    simp only at hd
    subst hd
    refine ⟨rfl, ?_⟩
    intro st' r hok
    cases hreg : registerPortfolioMsg st (some d) with
    | error e => simp [process, hreg] at hok
    | ok pr =>
      obtain ⟨st2, p⟩ := pr
      simp only [process, hreg, Except.ok.injEq, Prod.mk.injEq] at hok
      obtain ⟨h1, _⟩ := hok
      rw [← h1]
      have hf := registerPortfolioMsg_ok_fields st (some d) st2 p hreg
      exact ⟨hf.2.1, hf.2.2⟩
  · intro hmp d hd
    simp only at hmp hd
    subst hmp
    subst hd
    rfl

/-- CLAIM C10 — witness: a message carrying all three keys registers only
the portfolio, and a message carrying history and snapshot registers only
the history. -/
theorem c10_process_precedence_witness :
    (msgAllKeys.portfolio = some (.wellFormed [("A", 3)]) ∧
      process envOk initS 4 msgAllKeys =
        process envOk initS 4 ⟨some (.wellFormed [("A", 3)]), none, none⟩) ∧
    (msgHistSnap.portfolio = none ∧
      msgHistSnap.history = some (.wellFormed [⟨1, "A", 100⟩]) ∧
      process envOk initS 4 msgHistSnap =
        process envOk initS 4 ⟨none, some (.wellFormed [⟨1, "A", 100⟩]), none⟩) :=
  ⟨⟨rfl, ((c10_process_precedence envOk initS 4 msgAllKeys).1 _ rfl).1⟩,
   rfl, rfl, (c10_process_precedence envOk initS 4 msgHistSnap).2 rfl _ rfl⟩

end Dxlib
